import Mathlib

/-!
A shallow embedding in Lean 4 of `rebound/simulation_archive.py`
(class `SimulationArchive`), together with theorems checking the
natural-language specification of the archive reader against it.

Modelling conventions:
* Python floats (times, time steps, speeds) are modelled as `ℚ`;
  byte counts and indices as `ℤ`.
* The external C library (`clibrebound`) is modelled by an `Engine`
  record of opaque functions: the state written by
  `reb_simulationarchive_load_blob`, its status code, `integrator_synchronize`
  and `integrate`.  The archive's backing file is fixed, so these depend
  only on the blob index / the state passed in.
* `raise` is modelled with `Except`; each distinct raise site of the
  Python file gets its own `SAError` constructor.
* The single mutable simulation handle (`self.simp.contents`) and the
  lazily cached `self.speed` are threaded explicitly: every operation
  that can mutate them returns the updated `Archive`.
-/

namespace RB

/-- Python `int()` applied to a rational: truncation toward zero
(`int(2.7) = 2`, `int(-2.7) = -2`). -/
def pyint (q : ℚ) : ℤ := if q < 0 then ⌈q⌉ else ⌊q⌋

/-- Python `list.sort()`: stable ascending sort.  `pysort l` is the value
the caller's list object holds after the in-place sort. -/
def pysort (l : List ℚ) : List ℚ := List.insertionSort (· ≤ ·) l

/-- The distinct raise sites of `simulation_archive.py`.
The spec's error taxonomy maps onto them as follows:
`formatError` = the `ValueError(BINARY_WARNINGS[0])` in `__init__`
(spec: FormatError); `outOfRange` = the `ValueError` in
`getBlobJustBefore` (spec: RangeError); `loadFailed code` = the
`ValueError` raised when `reb_simulationarchive_load_blob` returns a
nonzero status (spec: LoadError(code)); `indexOutOfRange` = the
`IndexError` in `__getitem__` (spec: RangeError); `cannotModify` = the
`AttributeError` in `__setitem__` (spec: ReadOnlyError);
`sliceUnsupported` and `badKeyType` = the two `AttributeError`s at the
top of `__getitem__` (spec: ConfigError); `badMode` = the
`AttributeError` in `getSimulation` (spec: ConfigError). -/
inductive SAError where
  | formatError
  | outOfRange
  | loadFailed (code : ℤ)
  | indexOutOfRange
  | cannotModify
  | sliceUnsupported
  | badKeyType
  | badMode
deriving DecidableEq

/-- The fields of `struct reb_simulation` that `simulation_archive.py`
reads or writes.  `keep_unsynchronized` stands for
`sim.ri_whfast.keep_unsynchronized`; `additional_forces` is the callback
pointer (`none` = NULL); `simulationarchive_filename` uses `0` as the
"no further outputs" sentinel the Python code assigns; `phase` stands
for the remaining physical state (particle coordinates etc.), opaque to
the archive reader. -/
structure SimState where
  t : ℚ
  dt : ℚ
  keep_unsynchronized : ℤ
  additional_forces : Option ℤ
  simulationarchive_filename : ℤ
  simulationarchive_walltime : ℚ
  simulationarchive_interval : ℚ
  simulationarchive_seek_first : ℤ
  simulationarchive_seek_blob : ℤ
  phase : ℤ
deriving DecidableEq

/-- The external C library, at its boundary, for one fixed archive file:
`blobState i` is the simulation state `reb_simulationarchive_load_blob`
writes into the handle for blob index `i` when it succeeds, `loadRetv i`
its return status (0 = success), `synchronize` is
`sim.integrator_synchronize()`, and `integrate s t e` is
`sim.integrate(t, exact_finish_time=e)` run from state `s`. -/
structure Engine where
  blobState : ℤ → SimState
  loadRetv : ℤ → ℤ
  synchronize : SimState → SimState
  integrate : SimState → ℚ → Bool → SimState

/-- The `SimulationArchive` object: the engine and the single mutable
handle (`self.simp.contents`), the retained forces callback, the scalars
cached by `__init__` (`filesize`, `dt`, `interval`, `tmin`, `Nblob`,
`tmax`), and the lazily cached `self.speed` (`none` until the first
`estimateTime` call computes it). -/
structure Archive where
  engine : Engine
  handle : SimState
  additional_forces : Option ℤ
  filesize : ℤ
  dt : ℚ
  interval : ℚ
  tmin : ℚ
  Nblob : ℤ
  tmax : ℚ
  speed : Option ℚ

/-- Model of `SimulationArchive.__init__(filename, additional_forces)`.  Inputs
model what the engine reports while opening the file: `sim0` is the
state `reb_create_simulation_from_binary_with_messages` reconstructs at
t=0, `w` the warning bitmask it returns, `simNull` whether
`reb_create_simulation` returned NULL, `filesize` is
`os.path.getsize(filename)` and `af` the caller's callback.  Mirrors
lines 88-108: fail when `simp is None or (w & 1)`, otherwise cache
`dt`, `interval`, `tmin = 0`,
`Nblob = int((filesize - seek_first)/seek_blob)` and
`tmax = tmin + interval*(Nblob+1)`. -/
def init (engine : Engine) (sim0 : SimState) (w : ℕ) (simNull : Bool)
    (filesize : ℤ) (af : Option ℤ) : Except SAError Archive :=
  if simNull = true ∨ w % 2 = 1 then .error .formatError
  else
    let Nb : ℤ := pyint (((filesize : ℚ) - (sim0.simulationarchive_seek_first : ℚ)) /
      (sim0.simulationarchive_seek_blob : ℚ))
    .ok
      { engine := engine
        handle := sim0
        additional_forces := af
        filesize := filesize
        dt := sim0.dt
        interval := sim0.simulationarchive_interval
        tmin := 0
        Nblob := Nb
        tmax := 0 + sim0.simulationarchive_interval * ((Nb : ℚ) + 1)
        speed := none }

/-- Model of `getBlobJustBefore(t)` (lines 110-115): range check, then
`bi = max(0, floor((t - dt - tmin)/interval))`,
`bt = tmin + interval*bi`. -/
def getBlobJustBefore (a : Archive) (t : ℚ) : Except SAError (ℤ × ℚ) :=
  if t > a.tmax + a.dt ∨ t < a.tmin then .error .outOfRange
  else
    let bi : ℤ := max 0 ⌊(t - a.dt - a.tmin) / a.interval⌋
    let bt : ℚ := a.tmin + a.interval * (bi : ℚ)
    .ok (bi, bt)

/-- Model of `loadFromBlobAndSynchronize(blob, keep_unsynchronized)` (lines
62-73): call the engine's blob loader (raising on nonzero status), set
the keep-unsynchronized flag, re-attach the stored forces callback if
present, clear the auto-write filename, synchronize, and return the
handle.  The returned `SimState` is the new value of the archive's
handle (they alias in Python). -/
def loadFromBlobAndSynchronize (a : Archive) (blob : ℤ)
    (keep_unsynchronized : ℤ) : Except SAError (SimState × Archive) :=
  if a.engine.loadRetv blob ≠ 0 then .error (.loadFailed (a.engine.loadRetv blob))
  else
    let s := a.engine.blobState blob
    let s := { s with keep_unsynchronized := keep_unsynchronized }
    let s := match a.additional_forces with
      | some f => { s with additional_forces := some f }
      | none => s
    let s := { s with simulationarchive_filename := 0 }
    let s := a.engine.synchronize s
    .ok (s, { a with handle := s })

/-- The integer branch of `__getitem__` (lines 56-60): wrap a negative
key once by adding `len(self) = Nblob`, raise `IndexError` when the
result is `≥ Nblob`, otherwise delegate to `loadFromBlobAndSynchronize`
with the default `keep_unsynchronized=1`.  (The slice and non-integer
branches above it raise `AttributeError` and are modelled by
`getitemSlice` / `getitemBadType`.) -/
def getitem (a : Archive) (key : ℤ) : Except SAError (SimState × Archive) :=
  let key := if key < 0 then key + a.Nblob else key
  if key ≥ a.Nblob then .error .indexOutOfRange
  else loadFromBlobAndSynchronize a key 1

/-- Model of `__getitem__` on a slice (lines 52-53). -/
def getitemSlice (_a : Archive) : Except SAError (SimState × Archive) :=
  .error .sliceUnsupported

/-- Model of `__getitem__` on a non-integer key (lines 54-55). -/
def getitemBadType (_a : Archive) : Except SAError (SimState × Archive) :=
  .error .badKeyType

/-- Model of `__setitem__` (lines 75-76): always raises
`AttributeError("Cannot modify SimulationArchive.")`. -/
def setitem (_a : Archive) (_key : ℤ) (_value : SimState) : Except SAError Unit :=
  .error .cannotModify

/-- Model of `__delitem__` (lines 78-79): the body is `pass` — it raises nothing
and changes nothing; the archive is returned unmodified. -/
def delitem (a : Archive) (_key : ℤ) : Except SAError Archive :=
  .ok a

/-- Model of `__len__` (lines 85-86). -/
def lenArchive (a : Archive) : ℤ := a.Nblob

/-- The three valid values of `getSimulation`'s string `mode` parameter.
(The `mode not in ['blob','close','exact']` check of line 124 raises
`AttributeError` for any other string and is modelled by
`getSimulationBadMode`.) -/
inductive Mode where
  | blob
  | close
  | exact
deriving DecidableEq

/-- Model of `getSimulation(t, mode, keep_unsynchronized)` (lines 117-151) for a
valid mode.  For `blob`, delegate to `loadFromBlobAndSynchronize`.
Otherwise: reuse the current handle when
`sim.t < t and bt - sim.dt < sim.t and sim.ri_whfast.keep_unsynchronized == 1`,
else reload blob `bi` via the engine (raising on nonzero status); then
— line 143 reads `keep_unsynchronized==0` under `if mode=='exact'`,
a bare comparison whose result is discarded, so it has no effect and is
not modelled by any state change — assign the caller-supplied
`keep_unsynchronized` to the flag, re-attach forces, clear the
auto-write filename, and integrate to `t` with `exact_finish_time` set
exactly for `exact` mode. -/
def getSimulation (a : Archive) (t : ℚ) (mode : Mode)
    (keep_unsynchronized : ℤ) : Except SAError (SimState × Archive) :=
  match getBlobJustBefore a t with
  | .error e => .error e
  | .ok (bi, bt) =>
    match mode with
    | .blob => loadFromBlobAndSynchronize a bi keep_unsynchronized
    | _ =>
      let sim := a.handle
      let step : Except SAError (SimState × Archive) :=
        if sim.t < t ∧ bt - sim.dt < sim.t ∧ sim.keep_unsynchronized = 1 then
          .ok (sim, a)
        else
          if a.engine.loadRetv bi ≠ 0 then .error (.loadFailed (a.engine.loadRetv bi))
          else
            let s := a.engine.blobState bi
            .ok (s, { a with handle := s })
      match step with
      | .error e => .error e
      | .ok (sim, a) =>
        let sim := { sim with keep_unsynchronized := keep_unsynchronized }
        let sim := match a.additional_forces with
          | some f => { sim with additional_forces := some f }
          | none => sim
        let sim := { sim with simulationarchive_filename := 0 }
        let sim := a.engine.integrate sim t (mode = Mode.exact)
        .ok (sim, { a with handle := sim })

/-- Model of `getSimulation` with an invalid mode string (lines 124-125). -/
def getSimulationBadMode (_a : Archive) : Except SAError (SimState × Archive) :=
  .error .badMode

/-- The `try: speed = self.speed / except AttributeError:` block of
`estimateTime` (lines 200-207): return the cached speed if present,
otherwise load the final blob via `self[-1]`, compute
`speed = sim.t / sim.simulationarchive_walltime`, and cache it. -/
def getSpeed (a : Archive) : Except SAError (ℚ × Archive) :=
  match a.speed with
  | some s => .ok (s, a)
  | none =>
    match getitem a (-1) with
    | .error e => .error e
    | .ok (sim, a) =>
      let s := sim.t / sim.simulationarchive_walltime
      .ok (s, { a with speed := some s })

/-- The scalar branch of `estimateTime(t, tbefore)` (lines 198-214):
resolve the speed, resolve the blob just before `t`, take
`(t - bt)/speed`, and when `tbefore` is supplied take
`min((t - bt)/speed, (t - tbefore)/speed)`. -/
def estimateTime (a : Archive) (t : ℚ) (tbefore : Option ℚ) :
    Except SAError (ℚ × Archive) :=
  match getSpeed a with
  | .error e => .error e
  | .ok (speed, a) =>
    match getBlobJustBefore a t with
    | .error e => .error e
    | .ok (_bi, bt) =>
      let runtime_estimate := (t - bt) / speed
      let runtime_estimate := match tbefore with
        | some tb => min ((t - bt) / speed) ((t - tb) / speed)
        | none => runtime_estimate
      .ok (runtime_estimate, a)

/-- The `for _t in t:` loop of the array branch of `estimateTime`
(lines 192-196): accumulate scalar estimates, threading the previous
element as `tbefore`. -/
def estimateTimeLoop : Archive → ℚ → ℚ → List ℚ → Except SAError (ℚ × Archive)
  | a, _tbefore, acc, [] => .ok (acc, a)
  | a, tbefore, acc, t :: rest =>
    match estimateTime a t (some tbefore) with
    | .error e => .error e
    | .ok (e, a) => estimateTimeLoop a t (acc + e) rest

/-- The array branch of `estimateTime` (lines 188-196): sort the
caller's list in place (`t.sort()`), then run the loop with
`tbefore = 0` and `runtime_estimate = 0`.  The second component of the
result is the value the caller's list object holds after the call. -/
def estimateTimeBatch (a : Archive) (ts : List ℚ) :
    Except SAError (ℚ × List ℚ × Archive) :=
  let sorted := pysort ts
  match estimateTimeLoop a 0 0 sorted with
  | .error e => .error e
  | .ok (e, a) => .ok (e, sorted, a)

/-- A suspended `getSimulations` generator.  `times` aliases the
caller's list object; `started` records whether the generator body has
begun executing (Python runs none of the body at call time); `pos` is
the index of the next element to yield. -/
structure SimGen where
  archive : Archive
  times : List ℚ
  pos : ℕ
  started : Bool
  mode : Mode
  keep_unsynchronized : ℤ

/-- Calling `getSimulations(times, mode, keep_unsynchronized)` (lines
154-157).  The function is a generator: the call itself builds the
generator object and runs none of the body, so the caller's list is
untouched here. -/
def getSimulations (a : Archive) (times : List ℚ) (mode : Mode)
    (keep_unsynchronized : ℤ) : SimGen :=
  { archive := a
    times := times
    pos := 0
    started := false
    mode := mode
    keep_unsynchronized := keep_unsynchronized }

/-- Advancing the `getSimulations` generator once.  On the first
advance the body starts executing, and its first statement is the
in-place `times.sort()`; thereafter each advance yields
`getSimulation(t, mode, keep_unsynchronized)` for the next sorted time,
or `none` when exhausted. -/
def genNext (g : SimGen) : Option (Except SAError SimState) × SimGen :=
  let ts := if g.started then g.times else pysort g.times
  let g := { g with times := ts, started := true }
  match ts[g.pos]? with
  | none => (none, g)
  | some t =>
    match getSimulation g.archive t g.mode g.keep_unsynchronized with
    | .ok (s, a) => (some (.ok s), { g with archive := a, pos := g.pos + 1 })
    | .error e => (some (.error e), { g with pos := g.pos + 1 })

/-- The cached index scalars of an archive, bundled so that their
preservation by later operations is one equation. -/
def indexData (a : Archive) : ℤ × ℚ × ℚ × ℚ × ℤ × ℚ :=
  (a.filesize, a.dt, a.interval, a.tmin, a.Nblob, a.tmax)

/-- Extract the simulation state from a successful result. -/
def simOf : Except SAError (SimState × Archive) → Option SimState
  | .ok (s, _) => some s
  | .error _ => none

/-- Extract the keep-unsynchronized flag from a successful result. -/
def flagOf (r : Except SAError (SimState × Archive)) : Option ℤ :=
  (simOf r).map SimState.keep_unsynchronized

/-- Extract the simulation time from a successful result. -/
def timeOf (r : Except SAError (SimState × Archive)) : Option ℚ :=
  (simOf r).map SimState.t

/-- A concrete engine for a concrete archive file, used to evaluate the
model on explicit inputs: blob `i` holds a state at its nominal time
`10*i`, every blob load succeeds, synchronization is a no-op on the
observable fields, and integration moves the clock to the requested
time. -/
def sampleEngine : Engine where
  blobState := fun i =>
    { t := ((10 * i : ℤ) : ℚ)
      dt := 1/4
      keep_unsynchronized := 0
      additional_forces := none
      simulationarchive_filename := 7
      simulationarchive_walltime := 100
      simulationarchive_interval := 10
      simulationarchive_seek_first := 64
      simulationarchive_seek_blob := 32
      phase := i }
  loadRetv := fun _ => 0
  synchronize := id
  integrate := fun s t _ => { s with t := t }

/-- The state `sampleEngine` reconstructs at t=0 when the archive file
is opened. -/
def sampleSim0 : SimState := sampleEngine.blobState 0

/-- The spec's concrete scenario: `interval=10, dt=0.25, Nblob=5`
(`tmax=60`), i.e. `filesize = 64 + 5*32 = 224` with the sample engine's
seek offsets. -/
def sampleArchive : Archive where
  engine := sampleEngine
  handle := sampleSim0
  additional_forces := none
  filesize := 224
  dt := 1/4
  interval := 10
  tmin := 0
  Nblob := 5
  tmax := 60
  speed := none

/-- The sample archive after its speed cache has been populated. -/
def sampleArchiveSp : Archive := { sampleArchive with speed := some 2 }

/-- C2: for every time `t` with `tmin ≤ t ≤ tmax + dt`,
`getBlobJustBefore` returns `index = max(0, ⌊(t - dt - tmin)/interval⌋)`
and `blobTime = tmin + interval*index`; it fails with the range error
exactly when `t < tmin` or `t > tmax + dt`; and on the spec's concrete
scenario (`interval=10, dt=1/4, tmin=0`) it returns `(2, 20)` for
`t = 23`. -/
theorem C2_resolveBefore_spec :
    (∀ (a : Archive) (t : ℚ),
      (a.tmin ≤ t → t ≤ a.tmax + a.dt →
        getBlobJustBefore a t =
          .ok (max 0 ⌊(t - a.dt - a.tmin) / a.interval⌋,
            a.tmin + a.interval * ((max 0 ⌊(t - a.dt - a.tmin) / a.interval⌋ : ℤ) : ℚ))) ∧
      (t < a.tmin ∨ a.tmax + a.dt < t →
        getBlobJustBefore a t = .error .outOfRange)) ∧
    getBlobJustBefore sampleArchive 23 = .ok (2, 20) := by
  refine ⟨fun a t => ⟨fun h1 h2 => ?_, fun h => ?_⟩,
    by norm_num [getBlobJustBefore, sampleArchive]⟩
  · unfold getBlobJustBefore
    rw [if_neg (by push_neg; exact ⟨h2, h1⟩)]
  · unfold getBlobJustBefore
    rw [if_pos (Or.symm h)]

/-- Witness for C2: concrete in-range and out-of-range invocations on
the sample archive. -/
theorem C2_witness :
    getBlobJustBefore sampleArchive 30 =
      .ok (max 0 ⌊((30 : ℚ) - sampleArchive.dt - sampleArchive.tmin) / sampleArchive.interval⌋,
        sampleArchive.tmin + sampleArchive.interval *
          ((max 0 ⌊((30 : ℚ) - sampleArchive.dt - sampleArchive.tmin) / sampleArchive.interval⌋ : ℤ) : ℚ)) ∧
    getBlobJustBefore sampleArchive 100 = .error .outOfRange :=
  ⟨(C2_resolveBefore_spec.1 sampleArchive 30).1 (by norm_num [sampleArchive])
      (by norm_num [sampleArchive]),
    (C2_resolveBefore_spec.1 sampleArchive 100).2 (by norm_num [sampleArchive])⟩

/-- C1: the claim (and the function's own docstring, which says `exact`
mode "is not compatible with keep_unsynchronized=1") requires the
keep-unsynchronized flag to read 0 after
`getSimulation(t, mode='exact', keepUnsynchronized=1)`.  The code does
not do this: line 143 `keep_unsynchronized==0` is a comparison whose
result is discarded, so line 144 then assigns the caller-supplied 1.
This theorem evaluates the embedded code at the failing input
(`t = 23` on the sample archive): the flag reads 1, not 0. -/
theorem C1_exact_mode_flag_reads_one :
    flagOf (getSimulation sampleArchive 23 Mode.exact 1) = some 1 ∧
    flagOf (getSimulation sampleArchive 23 Mode.exact 1) ≠ some 0 := by
  constructor
  · norm_num [getSimulation, getBlobJustBefore, loadFromBlobAndSynchronize,
      sampleArchive, sampleSim0, sampleEngine, flagOf, simOf]
  · norm_num [getSimulation, getBlobJustBefore, loadFromBlobAndSynchronize,
      sampleArchive, sampleSim0, sampleEngine, flagOf, simOf]

/-- C3: opening an archive whose engine reconstruction reports a
warning bitmask with bit 0 set fails with the format error, for every
engine, every reconstructed state and every file size — in particular
the failure does not depend on the seek offsets or the file size from
which `Nblob` would be computed; and a bitmask with bit 0 clear (any
other warning bits set) does not cause a failure. -/
theorem C3_open_fatal_warning :
    ∀ (engine : Engine) (sim0 : SimState) (w : ℕ) (simNull : Bool)
      (filesize : ℤ) (af : Option ℤ),
      (w % 2 = 1 → init engine sim0 w simNull filesize af = .error .formatError) ∧
      (w % 2 = 0 → simNull = false →
        ∃ arch, init engine sim0 w simNull filesize af = .ok arch) := by
  intro engine sim0 w simNull filesize af
  constructor
  · intro h
    unfold init
    rw [if_pos (Or.inr h)]
  · intro h h2
    have hc : ¬(simNull = true ∨ w % 2 = 1) := by
      rintro (hc | hc)
      · rw [h2] at hc
        exact Bool.false_ne_true hc
      · omega
    unfold init
    rw [if_neg hc]
    exact ⟨_, rfl⟩

/-- Witness for C3: a fatal bitmask (5, bit 0 set) fails; bitmask 4
(only a non-fatal bit set) succeeds. -/
theorem C3_witness :
    init sampleEngine sampleSim0 5 false 224 none = .error .formatError ∧
    ∃ arch, init sampleEngine sampleSim0 4 false 224 none = .ok arch :=
  ⟨(C3_open_fatal_warning sampleEngine sampleSim0 5 false 224 none).1 rfl,
    (C3_open_fatal_warning sampleEngine sampleSim0 4 false 224 none).2 rfl rfl⟩

/-- C4 (amended): every index assignment to the view fails with the
read-only error, but index deletion is a silent no-op — `__delitem__`'s
body is `pass`, so it raises nothing and leaves the archive unchanged. -/
theorem C4_view_mutation :
    (∀ (a : Archive) (key : ℤ) (value : SimState),
      setitem a key value = .error .cannotModify) ∧
    (∀ (a : Archive) (key : ℤ), delitem a key = .ok a) :=
  ⟨fun _ _ _ => rfl, fun _ _ => rfl⟩

/-- Counterexample for C4 as stated: deleting index 0 from the sample
archive does not fail — it returns successfully and does not raise the
read-only error. -/
theorem C4_counterexample :
    delitem sampleArchive 0 = .ok sampleArchive ∧
    delitem sampleArchive 0 ≠ .error .cannotModify := by
  constructor
  · rfl
  · simp [delitem]

/-- In-range times make `getBlobJustBefore` return the index/time pair
of its formula (shared helper). -/
theorem getBlobJustBefore_ok (a : Archive) (t : ℚ)
    (h1 : a.tmin ≤ t) (h2 : t ≤ a.tmax + a.dt) :
    getBlobJustBefore a t =
      .ok (max 0 ⌊(t - a.dt - a.tmin) / a.interval⌋,
        a.tmin + a.interval * ((max 0 ⌊(t - a.dt - a.tmin) / a.interval⌋ : ℤ) : ℚ)) := by
  unfold getBlobJustBefore
  rw [if_neg (by push_neg; exact ⟨h2, h1⟩)]

/-- Helper: `⌊(interval*i - dt)/interval⌋ = i - 1` when `0 < dt ≤ interval`:
the `- dt` shift moves an exact checkpoint time to the previous index
(shared helper). -/
theorem floor_interval_mul_sub_dt (interval dt : ℚ) (i : ℤ)
    (hd1 : 0 < dt) (hd2 : dt ≤ interval) :
    ⌊(interval * (i : ℚ) - dt) / interval⌋ = i - 1 := by
  have hint : 0 < interval := lt_of_lt_of_le hd1 hd2
  rw [Int.floor_eq_iff]
  constructor
  · rw [le_div_iff₀ hint]
    push_cast
    nlinarith
  · rw [div_lt_iff₀ hint]
    push_cast
    nlinarith

/-- C5 (amended): for `0 ≤ i < Nblob`, `get(i)` returns
`loadBlob(i, keepUnsynchronized=1)`; `get(-1)` equals `get(Nblob-1)`;
`get(Nblob)` fails with the range error; but
`getSimulation(tmin + interval*i, mode='blob')` loads blob `i - 1`
(for `1 ≤ i < Nblob` and `0 < dt ≤ interval`), not blob `i`: the `- dt`
shift in the time resolver selects the preceding checkpoint at exact
checkpoint times, so the claimed equality with `get(i)` holds only at
`i = 0`. -/
theorem C5_view_indexing :
    (∀ (a : Archive) (i : ℤ), 0 ≤ i → i < a.Nblob →
      getitem a i = loadFromBlobAndSynchronize a i 1) ∧
    (∀ (a : Archive) (i ku : ℤ), 1 ≤ i → i < a.Nblob →
      0 < a.dt → a.dt ≤ a.interval →
      a.tmax = a.tmin + a.interval * ((a.Nblob : ℚ) + 1) →
      getSimulation a (a.tmin + a.interval * ((i : ℤ) : ℚ)) Mode.blob ku =
        loadFromBlobAndSynchronize a (i - 1) ku) ∧
    (∀ a : Archive, 1 ≤ a.Nblob → getitem a (-1) = getitem a (a.Nblob - 1)) ∧
    (∀ a : Archive, 0 ≤ a.Nblob →
      getitem a a.Nblob = .error .indexOutOfRange) := by
  refine ⟨fun a i h0 hN => ?_, fun a i ku hi1 hiN hd1 hd2 htmax => ?_,
    fun a hN => ?_, fun a h0 => ?_⟩
  · unfold getitem
    rw [if_neg (not_lt.mpr h0), if_neg (not_le.mpr hN)]
  · have hint : 0 < a.interval := lt_of_lt_of_le hd1 hd2
    have hiq : (1 : ℚ) ≤ (i : ℚ) := by exact_mod_cast hi1
    have hiq2 : (i : ℚ) ≤ (a.Nblob : ℚ) + 1 := by
      have : (i : ℚ) ≤ (a.Nblob : ℚ) := by exact_mod_cast hiN.le
      linarith
    have h1 : a.tmin ≤ a.tmin + a.interval * ((i : ℤ) : ℚ) := by nlinarith
    have h2 : a.tmin + a.interval * ((i : ℤ) : ℚ) ≤ a.tmax + a.dt := by
      rw [htmax]
      nlinarith
    have key : getBlobJustBefore a (a.tmin + a.interval * ((i : ℤ) : ℚ)) =
        .ok (i - 1, a.tmin + a.interval * ((i - 1 : ℤ) : ℚ)) := by
      rw [getBlobJustBefore_ok a _ h1 h2]
      have harg : a.tmin + a.interval * ((i : ℤ) : ℚ) - a.dt - a.tmin =
          a.interval * ((i : ℤ) : ℚ) - a.dt := by ring
      rw [harg, floor_interval_mul_sub_dt _ _ _ hd1 hd2]
      have hmax : max 0 (i - 1) = i - 1 := by omega
      rw [hmax]
    unfold getSimulation
    rw [key]
  · have h1 : (-1 : ℤ) + a.Nblob = a.Nblob - 1 := by ring
    unfold getitem
    rw [if_pos (by omega : (-1 : ℤ) < 0),
      if_neg (by omega : ¬(-1 : ℤ) + a.Nblob ≥ a.Nblob),
      if_neg (by omega : ¬a.Nblob - 1 < 0),
      if_neg (by omega : ¬a.Nblob - 1 ≥ a.Nblob), h1]
  · unfold getitem
    rw [if_neg (by omega : ¬a.Nblob < 0), if_pos (le_refl a.Nblob)]

/-- Counterexample for C5 as stated: on the sample archive
(`interval=10, dt=1/4, tmin=0`), `get(1)` yields the state of blob 1
(time 10), but `getSimulation(tmin + interval*1 = 10, mode='blob')`
yields the state of blob 0 (time 0): they differ in the time field,
which is not an internal bookkeeping flag. -/
theorem C5_counterexample :
    sampleArchive.tmin + sampleArchive.interval * ((1 : ℤ) : ℚ) = 10 ∧
    timeOf (getitem sampleArchive 1) = some 10 ∧
    timeOf (getSimulation sampleArchive 10 Mode.blob 1) = some 0 := by
  refine ⟨by norm_num [sampleArchive], ?_, ?_⟩ <;>
    norm_num [getitem, getSimulation, getBlobJustBefore,
      loadFromBlobAndSynchronize, sampleArchive, sampleSim0, sampleEngine,
      timeOf, simOf]

/-- Witness for C5: the amended theorem applied on the sample archive
at `i = 2`, at the wrap index `-1`, and at the overflow index `Nblob`. -/
theorem C5_witness :
    getitem sampleArchive 2 = loadFromBlobAndSynchronize sampleArchive 2 1 ∧
    getSimulation sampleArchive
        (sampleArchive.tmin + sampleArchive.interval * ((2 : ℤ) : ℚ)) Mode.blob 1 =
      loadFromBlobAndSynchronize sampleArchive (2 - 1) 1 ∧
    getitem sampleArchive (-1) = getitem sampleArchive (sampleArchive.Nblob - 1) ∧
    getitem sampleArchive sampleArchive.Nblob = .error .indexOutOfRange :=
  ⟨C5_view_indexing.1 sampleArchive 2 (by norm_num) (by norm_num [sampleArchive]),
    C5_view_indexing.2.1 sampleArchive 2 1 (by norm_num)
      (by norm_num [sampleArchive]) (by norm_num [sampleArchive])
      (by norm_num [sampleArchive]) (by norm_num [sampleArchive]),
    C5_view_indexing.2.2.1 sampleArchive (by norm_num [sampleArchive]),
    C5_view_indexing.2.2.2 sampleArchive (by norm_num [sampleArchive])⟩

/-- The state blob `i` of the sample archive holds after
`loadFromBlobAndSynchronize` (flag set to 1, auto-write cleared). -/
def sampleLoaded (i : ℤ) : SimState :=
  { t := ((10 * i : ℤ) : ℚ)
    dt := 1/4
    keep_unsynchronized := 1
    additional_forces := none
    simulationarchive_filename := 0
    simulationarchive_walltime := 100
    simulationarchive_interval := 10
    simulationarchive_seek_first := 64
    simulationarchive_seek_blob := 32
    phase := i }

/-- The archive `init` builds from the sample engine's file
(`filesize = 224`, `seek_first = 64`, `seek_blob = 32`). -/
def sampleInit : Archive where
  engine := sampleEngine
  handle := sampleSim0
  additional_forces := none
  filesize := 224
  dt := 1/4
  interval := 10
  tmin := 0
  Nblob := 5
  tmax := 60
  speed := none

/-- Helper: `loadFromBlobAndSynchronize` only rewrites the handle: the cached
index scalars survive (shared helper). -/
theorem indexData_load (a : Archive) (blob ku : ℤ) (s : SimState) (a' : Archive)
    (h : loadFromBlobAndSynchronize a blob ku = .ok (s, a')) :
    indexData a' = indexData a := by
  unfold loadFromBlobAndSynchronize at h
  split at h
  · exact Except.noConfusion h
  · simp only [Except.ok.injEq, Prod.mk.injEq] at h
    obtain ⟨-, rfl⟩ := h
    rfl

/-- Helper: `__getitem__` preserves the cached index scalars. -/
theorem indexData_getitem (a : Archive) (key : ℤ) (s : SimState) (a' : Archive)
    (h : getitem a key = .ok (s, a')) : indexData a' = indexData a := by
  simp only [getitem] at h
  split at h <;> split at h
  all_goals
    first
    | exact Except.noConfusion h
    | exact indexData_load _ _ _ _ _ h

/-- Helper: `getSimulation` preserves the cached index scalars. -/
theorem indexData_getSimulation (a : Archive) (t : ℚ) (mode : Mode) (ku : ℤ)
    (s : SimState) (a' : Archive)
    (h : getSimulation a t mode ku = .ok (s, a')) : indexData a' = indexData a := by
  unfold getSimulation at h
  cases hg : getBlobJustBefore a t with
  | error e => rw [hg] at h; exact Except.noConfusion h
  | ok p =>
    rw [hg] at h
    obtain ⟨bi, bt⟩ := p
    cases mode with
    | blob => exact indexData_load _ _ _ _ _ h
    | close =>
      dsimp only at h
      by_cases hc : a.handle.t < t ∧ bt - a.handle.dt < a.handle.t ∧
          a.handle.keep_unsynchronized = 1
      · rw [if_pos hc] at h
        dsimp only at h
        simp only [Except.ok.injEq, Prod.mk.injEq] at h
        obtain ⟨-, rfl⟩ := h
        rfl
      · rw [if_neg hc] at h
        by_cases hr : a.engine.loadRetv bi ≠ 0
        · rw [if_pos hr] at h
          dsimp only at h
          exact Except.noConfusion h
        · rw [if_neg hr] at h
          dsimp only at h
          simp only [Except.ok.injEq, Prod.mk.injEq] at h
          obtain ⟨-, rfl⟩ := h
          rfl
    | exact =>
      dsimp only at h
      by_cases hc : a.handle.t < t ∧ bt - a.handle.dt < a.handle.t ∧
          a.handle.keep_unsynchronized = 1
      · rw [if_pos hc] at h
        dsimp only at h
        simp only [Except.ok.injEq, Prod.mk.injEq] at h
        obtain ⟨-, rfl⟩ := h
        rfl
      · rw [if_neg hc] at h
        by_cases hr : a.engine.loadRetv bi ≠ 0
        · rw [if_pos hr] at h
          dsimp only at h
          exact Except.noConfusion h
        · rw [if_neg hr] at h
          dsimp only at h
          simp only [Except.ok.injEq, Prod.mk.injEq] at h
          obtain ⟨-, rfl⟩ := h
          rfl

/-- Helper: `getSpeed` writes only the speed cache (and, through `self[-1]`,
the handle): the cached index scalars survive (shared helper). -/
theorem indexData_getSpeed (a : Archive) (sp : ℚ) (a' : Archive)
    (h : getSpeed a = .ok (sp, a')) : indexData a' = indexData a := by
  unfold getSpeed at h
  cases hs : a.speed with
  | some s =>
    rw [hs] at h
    simp only [Except.ok.injEq, Prod.mk.injEq] at h
    obtain ⟨-, rfl⟩ := h
    rfl
  | none =>
    rw [hs] at h
    cases hg : getitem a (-1) with
    | error e => rw [hg] at h; exact Except.noConfusion h
    | ok p =>
      rw [hg] at h
      obtain ⟨sim, a1⟩ := p
      dsimp only at h
      simp only [Except.ok.injEq, Prod.mk.injEq] at h
      obtain ⟨-, rfl⟩ := h
      exact Eq.trans rfl (indexData_getitem a (-1) sim a1 hg)

/-- The scalar `estimateTime` preserves the cached index scalars
(shared helper). -/
theorem indexData_estimateTime (a : Archive) (t : ℚ) (tb : Option ℚ)
    (e : ℚ) (a' : Archive)
    (h : estimateTime a t tb = .ok (e, a')) : indexData a' = indexData a := by
  unfold estimateTime at h
  cases hs : getSpeed a with
  | error er => rw [hs] at h; exact Except.noConfusion h
  | ok p =>
    rw [hs] at h
    obtain ⟨sp, a1⟩ := p
    dsimp only at h
    cases hg : getBlobJustBefore a1 t with
    | error er => rw [hg] at h; exact Except.noConfusion h
    | ok q =>
      rw [hg] at h
      obtain ⟨bi, bt⟩ := q
      dsimp only at h
      simp only [Except.ok.injEq, Prod.mk.injEq] at h
      obtain ⟨-, rfl⟩ := h
      exact indexData_getSpeed _ _ _ hs

/-- The batch loop of `estimateTime` preserves the cached index scalars
(shared helper). -/
theorem indexData_estimateTimeLoop :
    ∀ (ts : List ℚ) (a : Archive) (tb acc e : ℚ) (a' : Archive),
      estimateTimeLoop a tb acc ts = .ok (e, a') → indexData a' = indexData a := by
  intro ts
  induction ts with
  | nil =>
    intro a tb acc e a' h
    unfold estimateTimeLoop at h
    simp only [Except.ok.injEq, Prod.mk.injEq] at h
    obtain ⟨-, rfl⟩ := h
    rfl
  | cons t rest ih =>
    intro a tb acc e a' h
    unfold estimateTimeLoop at h
    cases he : estimateTime a t (some tb) with
    | error er => rw [he] at h; exact Except.noConfusion h
    | ok p =>
      rw [he] at h
      obtain ⟨e1, a1⟩ := p
      exact (ih a1 t (acc + e1) e a' h).trans (indexData_estimateTime _ _ _ _ _ he)

/-- C6: after every successful open with well-formed engine metadata
(`0 < seek_blob` and `seek_first ≤ filesize`), the cached scalars
satisfy `tmin = 0`, `Nblob = ⌊(filesize - seek_first)/seek_blob⌋ ≥ 0`
and `tmax = tmin + interval*(Nblob+1)`; and no later operation of the
archive (blob load, indexing, deletion, reconstruction, speed lookup,
scalar or batch estimation) changes them. -/
theorem C6_index_invariants :
    (∀ (engine : Engine) (sim0 : SimState) (w : ℕ) (simNull : Bool)
      (filesize : ℤ) (af : Option ℤ) (arch : Archive),
      init engine sim0 w simNull filesize af = .ok arch →
      0 < sim0.simulationarchive_seek_blob →
      sim0.simulationarchive_seek_first ≤ filesize →
      arch.tmin = 0 ∧
      arch.Nblob = ⌊((filesize : ℚ) - (sim0.simulationarchive_seek_first : ℚ)) /
        (sim0.simulationarchive_seek_blob : ℚ)⌋ ∧
      0 ≤ arch.Nblob ∧
      arch.tmax = arch.tmin + arch.interval * ((arch.Nblob : ℚ) + 1)) ∧
    (∀ (a : Archive) (blob ku : ℤ) (s : SimState) (a' : Archive),
      loadFromBlobAndSynchronize a blob ku = .ok (s, a') →
      indexData a' = indexData a) ∧
    (∀ (a : Archive) (key : ℤ) (s : SimState) (a' : Archive),
      getitem a key = .ok (s, a') → indexData a' = indexData a) ∧
    (∀ (a : Archive) (key : ℤ) (a' : Archive),
      delitem a key = .ok a' → indexData a' = indexData a) ∧
    (∀ (a : Archive) (t : ℚ) (mode : Mode) (ku : ℤ) (s : SimState) (a' : Archive),
      getSimulation a t mode ku = .ok (s, a') → indexData a' = indexData a) ∧
    (∀ (a : Archive) (sp : ℚ) (a' : Archive),
      getSpeed a = .ok (sp, a') → indexData a' = indexData a) ∧
    (∀ (a : Archive) (t : ℚ) (tb : Option ℚ) (e : ℚ) (a' : Archive),
      estimateTime a t tb = .ok (e, a') → indexData a' = indexData a) ∧
    (∀ (a : Archive) (ts l : List ℚ) (e : ℚ) (a' : Archive),
      estimateTimeBatch a ts = .ok (e, l, a') → indexData a' = indexData a) := by
  refine ⟨?_, indexData_load, indexData_getitem,
    fun a key a' h => by
      simp only [delitem, Except.ok.injEq] at h
      rw [h],
    indexData_getSimulation, indexData_getSpeed, indexData_estimateTime, ?_⟩
  · intro engine sim0 w simNull filesize af arch h hsb hsf
    unfold init at h
    split at h
    · exact Except.noConfusion h
    · simp only [Except.ok.injEq] at h
      subst h
      have hq : (0 : ℚ) ≤ ((filesize : ℚ) - (sim0.simulationarchive_seek_first : ℚ)) /
          (sim0.simulationarchive_seek_blob : ℚ) := by
        apply div_nonneg
        · rw [sub_nonneg]
          exact_mod_cast hsf
        · exact_mod_cast hsb.le
      refine ⟨rfl, ?_, ?_, rfl⟩
      · show pyint _ = _
        unfold pyint
        rw [if_neg (not_lt.mpr hq)]
      · show (0 : ℤ) ≤ pyint _
        unfold pyint
        rw [if_neg (not_lt.mpr hq)]
        exact Int.floor_nonneg.mpr hq
  · intro a ts l e a' h
    simp only [estimateTimeBatch] at h
    cases hl : estimateTimeLoop a 0 0 (pysort ts) with
    | error er => rw [hl] at h; exact Except.noConfusion h
    | ok p =>
      rw [hl] at h
      obtain ⟨e1, a1⟩ := p
      dsimp only at h
      simp only [Except.ok.injEq, Prod.mk.injEq] at h
      obtain ⟨-, -, rfl⟩ := h
      exact indexData_estimateTimeLoop _ _ _ _ _ _ hl

/-- Witness for C6: the invariants on the concretely opened sample
archive, and index-scalar preservation across a concrete `get(0)`. -/
theorem C6_witness :
    (sampleInit.tmin = 0 ∧
      sampleInit.Nblob = ⌊(((224 : ℤ) : ℚ) - (sampleSim0.simulationarchive_seek_first : ℚ)) /
        (sampleSim0.simulationarchive_seek_blob : ℚ)⌋ ∧
      0 ≤ sampleInit.Nblob ∧
      sampleInit.tmax = sampleInit.tmin + sampleInit.interval * ((sampleInit.Nblob : ℚ) + 1)) ∧
    indexData { sampleArchive with handle := sampleLoaded 0 } = indexData sampleArchive :=
  ⟨C6_index_invariants.1 sampleEngine sampleSim0 0 false 224 none sampleInit
      (by norm_num [init, pyint, sampleInit, sampleSim0, sampleEngine])
      (by norm_num [sampleSim0, sampleEngine]) (by norm_num [sampleSim0, sampleEngine]),
    C6_index_invariants.2.2.1 sampleArchive 0 (sampleLoaded 0)
      { sampleArchive with handle := sampleLoaded 0 }
      (by norm_num [getitem, loadFromBlobAndSynchronize, sampleArchive, sampleSim0,
        sampleEngine, sampleLoaded])⟩

/-- The blob index `getBlobJustBefore` computes for an in-range time
(shared helper; names the `bi` local of lines 113-115). -/
def biOf (a : Archive) (t : ℚ) : ℤ := max 0 ⌊(t - a.dt - a.tmin) / a.interval⌋

/-- The blob time `getBlobJustBefore` computes for an in-range time
(shared helper; names the `bt` local of lines 113-115). -/
def btOf (a : Archive) (t : ℚ) : ℚ := a.tmin + a.interval * ((biOf a t : ℤ) : ℚ)

/-- Helper: `getBlobJustBefore` on an in-range time, phrased with `biOf`/`btOf`
(shared helper). -/
theorem getBlobJustBefore_eq_ok (a : Archive) (t : ℚ)
    (h1 : a.tmin ≤ t) (h2 : t ≤ a.tmax + a.dt) :
    getBlobJustBefore a t = .ok (biOf a t, btOf a t) :=
  getBlobJustBefore_ok a t h1 h2

/-- The resolved blob time never exceeds the requested time when the
step size is nonnegative and the interval positive (shared helper). -/
theorem btOf_le (a : Archive) (t : ℚ) (hdt : 0 ≤ a.dt) (hint : 0 < a.interval)
    (h1 : a.tmin ≤ t) : btOf a t ≤ t := by
  unfold btOf biOf
  rcases le_or_lt ⌊(t - a.dt - a.tmin) / a.interval⌋ 0 with hle | hpos
  · rw [max_eq_left hle]
    push_cast
    linarith
  · rw [max_eq_right hpos.le]
    have hfl : ((⌊(t - a.dt - a.tmin) / a.interval⌋ : ℤ) : ℚ) ≤
        (t - a.dt - a.tmin) / a.interval := Int.floor_le _
    have hm := mul_le_mul_of_nonneg_left hfl hint.le
    have h3 : a.interval * ((t - a.dt - a.tmin) / a.interval) =
        t - a.dt - a.tmin := by
      field_simp
    rw [h3] at hm
    linarith

/-- Scalar `estimateTime` with an already cached speed: the archive is
returned unchanged and the estimate is the source's formula (shared
helper). -/
theorem estimateTime_cached (a : Archive) (sp t : ℚ) (tb : Option ℚ)
    (hsp : a.speed = some sp) (h1 : a.tmin ≤ t) (h2 : t ≤ a.tmax + a.dt) :
    estimateTime a t tb =
      .ok (match tb with
        | some tbv => min ((t - btOf a t) / sp) ((t - tbv) / sp)
        | none => (t - btOf a t) / sp, a) := by
  unfold estimateTime getSpeed
  rw [hsp]
  dsimp only
  rw [getBlobJustBefore_eq_ok a t h1 h2]

/-- The batch loop on a two-element list with a cached speed (shared
helper). -/
theorem estimateTimeLoop_pair (a : Archive) (sp u v tb acc : ℚ)
    (hsp : a.speed = some sp)
    (hu1 : a.tmin ≤ u) (hu2 : u ≤ a.tmax + a.dt)
    (hv1 : a.tmin ≤ v) (hv2 : v ≤ a.tmax + a.dt) :
    estimateTimeLoop a tb acc [u, v] =
      .ok (acc + min ((u - btOf a u) / sp) ((u - tb) / sp)
        + min ((v - btOf a v) / sp) ((v - u) / sp), a) := by
  unfold estimateTimeLoop
  rw [estimateTime_cached a sp u (some tb) hsp hu1 hu2]
  dsimp only
  unfold estimateTimeLoop
  rw [estimateTime_cached a sp v (some u) hsp hv1 hv2]
  dsimp only
  unfold estimateTimeLoop
  rfl

/-- Helper: `pysort` on a two-element list. -/
theorem pysort_pair (t1 t2 : ℚ) :
    pysort [t1, t2] = if t1 ≤ t2 then [t1, t2] else [t2, t1] := by
  by_cases hc : t1 ≤ t2 <;>
    simp [pysort, List.insertionSort, List.orderedInsert, hc]

/-- C7: with a cached recorded speed `sp > 0`, a nonnegative step and a
positive interval, the scalar estimate for every valid time is
nonnegative, and the batch estimate for two valid times is at most the
sum of the two scalar estimates — the batch threads the previous sorted
time as `tbefore` and each term takes
`min(baseEstimate, (t - tbefore)/speed)`. -/
theorem C7_estimate_nonneg_subadditive :
    ∀ (a : Archive) (sp t t1 t2 : ℚ),
      a.speed = some sp → 0 < sp → 0 ≤ a.dt → 0 < a.interval →
      (a.tmin ≤ t → t ≤ a.tmax + a.dt →
        estimateTime a t none = .ok ((t - btOf a t) / sp, a) ∧
        0 ≤ (t - btOf a t) / sp) ∧
      (a.tmin ≤ t1 → t1 ≤ a.tmax + a.dt → a.tmin ≤ t2 → t2 ≤ a.tmax + a.dt →
        ∃ eb, estimateTimeBatch a [t1, t2] = .ok (eb, pysort [t1, t2], a) ∧
          eb ≤ (t1 - btOf a t1) / sp + (t2 - btOf a t2) / sp) := by
  intro a sp t t1 t2 hsp hsppos hdt hint
  constructor
  · intro h1 h2
    refine ⟨estimateTime_cached a sp t none hsp h1 h2, ?_⟩
    have hbt := btOf_le a t hdt hint h1
    apply div_nonneg _ hsppos.le
    linarith
  · intro h11 h12 h21 h22
    have hps := pysort_pair t1 t2
    by_cases hc : t1 ≤ t2
    · rw [if_pos hc] at hps
      refine ⟨0 + min ((t1 - btOf a t1) / sp) ((t1 - 0) / sp)
        + min ((t2 - btOf a t2) / sp) ((t2 - t1) / sp), ?_, ?_⟩
      · simp only [estimateTimeBatch, hps]
        rw [estimateTimeLoop_pair a sp t1 t2 0 0 hsp h11 h12 h21 h22]
      · have m1 := min_le_left ((t1 - btOf a t1) / sp) ((t1 - 0) / sp)
        have m2 := min_le_left ((t2 - btOf a t2) / sp) ((t2 - t1) / sp)
        linarith
    · rw [if_neg hc] at hps
      refine ⟨0 + min ((t2 - btOf a t2) / sp) ((t2 - 0) / sp)
        + min ((t1 - btOf a t1) / sp) ((t1 - t2) / sp), ?_, ?_⟩
      · simp only [estimateTimeBatch, hps]
        rw [estimateTimeLoop_pair a sp t2 t1 0 0 hsp h21 h22 h11 h12]
      · have m1 := min_le_left ((t2 - btOf a t2) / sp) ((t2 - 0) / sp)
        have m2 := min_le_left ((t1 - btOf a t1) / sp) ((t1 - t2) / sp)
        linarith

/-- Witness for C7: nonnegativity at `t = 23` and batch subadditivity
at `[23, 3]` on the sample archive with cached speed 2. -/
theorem C7_witness :
    (estimateTime sampleArchiveSp 23 none =
      .ok ((23 - btOf sampleArchiveSp 23) / 2, sampleArchiveSp) ∧
      0 ≤ (23 - btOf sampleArchiveSp 23) / 2) ∧
    ∃ eb, estimateTimeBatch sampleArchiveSp [23, 3] =
        .ok (eb, pysort [23, 3], sampleArchiveSp) ∧
      eb ≤ (23 - btOf sampleArchiveSp 23) / 2 + (3 - btOf sampleArchiveSp 3) / 2 :=
  ⟨(C7_estimate_nonneg_subadditive sampleArchiveSp 2 23 23 3
      (by norm_num [sampleArchiveSp, sampleArchive]) (by norm_num)
      (by norm_num [sampleArchiveSp, sampleArchive])
      (by norm_num [sampleArchiveSp, sampleArchive])).1
      (by norm_num [sampleArchiveSp, sampleArchive])
      (by norm_num [sampleArchiveSp, sampleArchive]),
    (C7_estimate_nonneg_subadditive sampleArchiveSp 2 23 23 3
      (by norm_num [sampleArchiveSp, sampleArchive]) (by norm_num)
      (by norm_num [sampleArchiveSp, sampleArchive])
      (by norm_num [sampleArchiveSp, sampleArchive])).2
      (by norm_num [sampleArchiveSp, sampleArchive])
      (by norm_num [sampleArchiveSp, sampleArchive])
      (by norm_num [sampleArchiveSp, sampleArchive])
      (by norm_num [sampleArchiveSp, sampleArchive])⟩

/-- C8: for every integer key below `-Nblob`, the view's integer
indexing does not raise the out-of-range error: the wrap `key += Nblob`
is applied exactly once, the still-negative result passes the
`key >= Nblob` check, and is handed to the blob loader as a negative
blob index. -/
theorem C8_deep_negative_key :
    ∀ (a : Archive) (key : ℤ), 0 ≤ a.Nblob → key < -a.Nblob →
      getitem a key = loadFromBlobAndSynchronize a (key + a.Nblob) 1 ∧
      key + a.Nblob < 0 := by
  intro a key h0 hk
  refine ⟨?_, by omega⟩
  simp only [getitem]
  rw [if_pos (by omega : key < 0),
    if_neg (by omega : ¬key + a.Nblob ≥ a.Nblob)]

/-- Witness for C8: key `-7` on the sample archive (`Nblob = 5`) wraps
to the negative blob index `-2` and reaches the loader. -/
theorem C8_witness :
    getitem sampleArchive (-7) =
      loadFromBlobAndSynchronize sampleArchive (-7 + sampleArchive.Nblob) 1 ∧
    (-7 : ℤ) + sampleArchive.Nblob < 0 :=
  C8_deep_negative_key sampleArchive (-7) (by norm_num [sampleArchive])
    (by norm_num [sampleArchive])

/-- C9: a scalar `estimateTime` call on an archive with no cached speed
loads the final blob (index `Nblob - 1`, via `self[-1]`) into the
shared handle — the resulting handle is exactly the loader's output,
independent of what the handle held before — and caches
`speed = sim.t / sim.simulationarchive_walltime`; when a cached speed
exists, the call returns the archive completely unchanged (in
particular the handle). -/
theorem C9_estimate_handle_effect :
    ∀ (a : Archive) (t e : ℚ) (a' : Archive),
      (a.speed = none → estimateTime a t none = .ok (e, a') →
        ∃ s1 aL, loadFromBlobAndSynchronize a (a.Nblob - 1) 1 = .ok (s1, aL) ∧
          a'.handle = s1 ∧
          a'.speed = some (s1.t / s1.simulationarchive_walltime)) ∧
      (∀ sp : ℚ, a.speed = some sp →
        estimateTime a t none = .ok (e, a') → a' = a) := by
  intro a t e a'
  constructor
  · intro hs h
    have hgi : getitem a (-1) = loadFromBlobAndSynchronize a (a.Nblob - 1) 1 := by
      simp only [getitem]
      rw [if_pos (by omega : (-1 : ℤ) < 0),
        if_neg (by omega : ¬(-1 : ℤ) + a.Nblob ≥ a.Nblob),
        (by ring : (-1 : ℤ) + a.Nblob = a.Nblob - 1)]
    unfold estimateTime getSpeed at h
    rw [hs] at h
    dsimp only at h
    rw [hgi] at h
    cases hl : loadFromBlobAndSynchronize a (a.Nblob - 1) 1 with
    | error er => rw [hl] at h; exact Except.noConfusion h
    | ok p =>
      rw [hl] at h
      obtain ⟨s1, aL⟩ := p
      dsimp only at h
      have haL : aL = { a with handle := s1 } := by
        unfold loadFromBlobAndSynchronize at hl
        split at hl
        · exact Except.noConfusion hl
        · simp only [Except.ok.injEq, Prod.mk.injEq] at hl
          obtain ⟨h1, h2⟩ := hl
          subst h1
          exact h2.symm
      cases hb : getBlobJustBefore
          { aL with speed := some (s1.t / s1.simulationarchive_walltime) } t with
      | error er => rw [hb] at h; exact Except.noConfusion h
      | ok q =>
        rw [hb] at h
        obtain ⟨bi, bt⟩ := q
        dsimp only at h
        simp only [Except.ok.injEq, Prod.mk.injEq] at h
        obtain ⟨-, rfl⟩ := h
        subst haL
        exact ⟨s1, { a with handle := s1 }, rfl, rfl, rfl⟩
  · intro sp hs h
    unfold estimateTime getSpeed at h
    rw [hs] at h
    dsimp only at h
    cases hb : getBlobJustBefore a t with
    | error er => rw [hb] at h; exact Except.noConfusion h
    | ok q =>
      rw [hb] at h
      obtain ⟨bi, bt⟩ := q
      dsimp only at h
      simp only [Except.ok.injEq, Prod.mk.injEq] at h
      exact h.2.symm

/-- The archive state after the first `estimateTime` call on the sample
archive: blob 4 loaded into the handle, speed `40/100 = 2/5` cached. -/
def sampleAfterEstimate : Archive :=
  { sampleArchive with handle := sampleLoaded 4, speed := some (2/5) }

/-- Witness for C9: on the sample archive with an empty speed cache,
`estimateTime(23)` loads blob 4 into the handle and caches speed
`40/100 = 2/5`; on the sample archive with cached speed 2 it leaves the
archive unchanged. -/
theorem C9_witness :
    (∃ s1 aL,
      loadFromBlobAndSynchronize sampleArchive (sampleArchive.Nblob - 1) 1 =
        .ok (s1, aL) ∧
      sampleAfterEstimate.handle = s1 ∧
      sampleAfterEstimate.speed = some (s1.t / s1.simulationarchive_walltime)) ∧
    sampleArchiveSp = sampleArchiveSp :=
  ⟨(C9_estimate_handle_effect sampleArchive 23 (15/2) sampleAfterEstimate).1
      rfl
      (by norm_num [estimateTime, getSpeed, getitem, loadFromBlobAndSynchronize,
        getBlobJustBefore, sampleArchive, sampleSim0, sampleEngine, sampleLoaded,
        sampleAfterEstimate]),
    (C9_estimate_handle_effect sampleArchiveSp 23 (3/2) sampleArchiveSp).2 2
      (by norm_num [sampleArchiveSp, sampleArchive])
      (by norm_num [estimateTime, getSpeed, getBlobJustBefore,
        sampleArchiveSp, sampleArchive, sampleSim0, sampleEngine])⟩

/-- C10: `getSimulations` runs none of its body at call time (the
caller's list and the started flag are untouched), its first
advancement sorts the caller's list in place; the batch
`estimateTime` sorts the caller's list at call time; and the sorted
value is ascending and a permutation of the original. -/
theorem C10_inplace_sort :
    ∀ (a : Archive) (times ts : List ℚ) (mode : Mode) (ku : ℤ),
      (getSimulations a times mode ku).times = times ∧
      (getSimulations a times mode ku).started = false ∧
      (genNext (getSimulations a times mode ku)).2.times = pysort times ∧
      (∀ (e : ℚ) (l : List ℚ) (a' : Archive),
        estimateTimeBatch a ts = .ok (e, l, a') → l = pysort ts) ∧
      List.Sorted (· ≤ ·) (pysort ts) ∧ (pysort ts).Perm ts := by
  intro a times ts mode ku
  refine ⟨rfl, rfl, ?_, ?_, ?_, ?_⟩
  · simp only [genNext, getSimulations, Bool.false_eq_true, if_false]
    split
    · rfl
    · split <;> rfl
  · intro e l a' h
    simp only [estimateTimeBatch] at h
    cases hl : estimateTimeLoop a 0 0 (pysort ts) with
    | error er => rw [hl] at h; exact Except.noConfusion h
    | ok p =>
      rw [hl] at h
      obtain ⟨e1, a1⟩ := p
      dsimp only at h
      simp only [Except.ok.injEq, Prod.mk.injEq] at h
      exact h.2.1.symm
  · exact List.sorted_insertionSort _ _
  · exact List.perm_insertionSort _ _

/-- Witness for C10: concrete lists — `getSimulations` leaves
`[3, 1, 2]` untouched at call time, the first advance sorts it, and the
batch estimator returns with `[23, 3]` sorted to `[3, 23]`. -/
theorem C10_witness :
    (getSimulations sampleArchiveSp [3, 1, 2] Mode.blob 1).times = [3, 1, 2] ∧
    (getSimulations sampleArchiveSp [3, 1, 2] Mode.blob 1).started = false ∧
    (genNext (getSimulations sampleArchiveSp [3, 1, 2] Mode.blob 1)).2.times =
      pysort [3, 1, 2] ∧
    ([3, 23] : List ℚ) = pysort [23, 3] :=
  ⟨(C10_inplace_sort sampleArchiveSp [3, 1, 2] [23, 3] Mode.blob 1).1,
    (C10_inplace_sort sampleArchiveSp [3, 1, 2] [23, 3] Mode.blob 1).2.1,
    (C10_inplace_sort sampleArchiveSp [3, 1, 2] [23, 3] Mode.blob 1).2.2.1,
    (C10_inplace_sort sampleArchiveSp [3, 1, 2] [23, 3] Mode.blob 1).2.2.2.1
      3 [3, 23] sampleArchiveSp
      (by norm_num [estimateTimeBatch, estimateTimeLoop, estimateTime, getSpeed,
        getBlobJustBefore, pysort, List.insertionSort, List.orderedInsert,
        min_def, sampleArchiveSp, sampleArchive, sampleSim0, sampleEngine])⟩

end RB
